import Mathlib

/-!
Verification of the NiftyMIC Tikhonov reconstruction solver
(`src/py/reconstruction/solver/TikhonovSolver.py`) and the rigid
registration collaborator (`src/registration/Registration.py`).

Flat numpy arrays are embedded as `List ℝ`; `np.sqrt` is `Real.sqrt`;
Python exceptions are `Except String`.  Methods of the `TikhonovSolver`
object become functions on an explicit state record `TikState`; the data
held by the missing `Solver` base class (the masked stack assembler, the
differential operators, the masked observations) is abstracted into a
record of session operators `SessionOps`.
-/

namespace NiftyMIC

/-- Elementwise product of two flat arrays (numpy `a*b`). -/
def vecMul (a b : List ℝ) : List ℝ := List.zipWith (· * ·) a b

/-- Elementwise sum of two flat arrays (numpy `a+b`). -/
def vecAdd (a b : List ℝ) : List ℝ := List.zipWith (· + ·) a b

/-- Elementwise difference of two flat arrays (numpy `a-b`). -/
def vecSub (a b : List ℝ) : List ℝ := List.zipWith (· - ·) a b

/-- Scalar times a flat array (numpy `s*a`). -/
def smul (s : ℝ) (a : List ℝ) : List ℝ := a.map (fun t => s * t)

/-- Euclidean inner product of two flat arrays. -/
def dot (a b : List ℝ) : ℝ := (List.zipWith (· * ·) a b).sum

/-- Sum of squares of a flat array (numpy `np.sum(v**2)`). -/
def sumSq (a : List ℝ) : ℝ := (a.map (fun t => t ^ 2)).sum

/-- Numpy slice assignment `v[start:start+len(w)] = w`. -/
def setSlice (v : List ℝ) (start : ℕ) (w : List ℝ) : List ℝ :=
  v.take start ++ w ++ v.drop (start + w.length)

/-- The session data captured by the solver object: the voxel counts fixed
at construction, the masked stack assembler of the missing `Solver` base
class (`_MA` and the volume-space half of `_A_adj_M`), the cached masked
observations `_get_M_y`, and the differential operators `Dx`, `Dy`, `Dz`
with their adjoints.  All of these live outside the excerpted source and
are kept abstract; the contracts assumed about them appear as hypotheses
of the theorems below. -/
structure SessionOps where
  Ntot : ℕ
  Nvox : ℕ
  MA : List ℝ → List ℝ
  MAadj : List ℝ → List ℝ
  My : List ℝ
  Dx : List ℝ → List ℝ
  Dy : List ℝ → List ℝ
  Dz : List ℝ → List ℝ
  DxT : List ℝ → List ℝ
  DyT : List ℝ → List ℝ
  DzT : List ℝ → List ℝ

/-- Modelled from the spec: `_A_adj_M` of the missing `Solver` base class.
Per section 4.3 the adjoint assembler slices its input back per-slice in
the fixed concatenation order, consuming the first `N_total_slice_voxels`
entries, and accumulates the per-slice volume contributions; entries past
the data-fit block are never read. -/
noncomputable def A_adj_M (ops : SessionOps) (z : List ℝ) : List ℝ :=
  ops.MAadj (z.take ops.Ntot)

/-- `TikhonovSolver._A_TK0`: allocate `N_total_slice_voxels + N_voxels`
zeros, write `MA x` into `A_x[0:-N_voxels]` and `sqrt(alpha)*x` into
`A_x[-N_voxels:]`. -/
noncomputable def A_TK0 (ops : SessionOps) (HR_nda_vec : List ℝ) (alpha : ℝ) : List ℝ :=
  let A0 := List.replicate (ops.Ntot + ops.Nvox) (0 : ℝ)
  let A1 := setSlice A0 0 (ops.MA HR_nda_vec)
  setSlice A1 ops.Ntot (smul (Real.sqrt alpha) HR_nda_vec)

/-- `TikhonovSolver._A_adj_TK0`: `A_adj_M` applied to the whole stacked
vector, plus `sqrt(alpha)` times its last `N_voxels` entries. -/
noncomputable def A_adj_TK0 (ops : SessionOps) (stacked_slices_nda_vec : List ℝ) (alpha : ℝ) :
    List ℝ :=
  let A_adj_y := A_adj_M ops stacked_slices_nda_vec
  vecAdd A_adj_y
    (smul (Real.sqrt alpha)
      (stacked_slices_nda_vec.drop (stacked_slices_nda_vec.length - ops.Nvox)))

/-- Modelled from the spec: `_A_TK1` (referenced by the solver's operator
dictionary but missing from the excerpt).  Section 4.4:
`A(x,alpha) = [MassembleForward(x); sqrt(alpha)*Dx(x); sqrt(alpha)*Dy(x);
sqrt(alpha)*Dz(x)]`. -/
noncomputable def A_TK1 (ops : SessionOps) (HR_nda_vec : List ℝ) (alpha : ℝ) : List ℝ :=
  ops.MA HR_nda_vec
    ++ smul (Real.sqrt alpha) (ops.Dx HR_nda_vec)
    ++ smul (Real.sqrt alpha) (ops.Dy HR_nda_vec)
    ++ smul (Real.sqrt alpha) (ops.Dz HR_nda_vec)

/-- Modelled from the spec: `_A_adj_TK1` (missing from the excerpt).
Section 4.4: the adjoint sums the data-fit adjoint contribution and the
three directional-derivative adjoints scaled by `sqrt(alpha)`, applied to
the three `N_voxels`-sized regularization blocks of the input. -/
noncomputable def A_adj_TK1 (ops : SessionOps) (z : List ℝ) (alpha : ℝ) : List ℝ :=
  let A_adj_y := A_adj_M ops z
  vecAdd
    (vecAdd
      (vecAdd A_adj_y
        (smul (Real.sqrt alpha) (ops.DxT ((z.drop ops.Ntot).take ops.Nvox))))
      (smul (Real.sqrt alpha) (ops.DyT ((z.drop (ops.Ntot + ops.Nvox)).take ops.Nvox))))
    (smul (Real.sqrt alpha) (ops.DzT ((z.drop (ops.Ntot + 2 * ops.Nvox)).take ops.Nvox)))

section DotLemmas

lemma dot_nil_right (a : List ℝ) : dot a [] = 0 := by
  cases a <;> simp [dot]

lemma dot_cons (a b : ℝ) (as bs : List ℝ) :
    dot (a :: as) (b :: bs) = a * b + dot as bs := by
  simp [dot]

lemma dot_append (a b z : List ℝ) :
    dot (a ++ b) z = dot a (z.take a.length) + dot b (z.drop a.length) := by
  induction a generalizing z with
  | nil => simp [dot]
  | cons x xs ih =>
    cases z with
    | nil => simp [dot_nil_right, dot]
    | cons y ys => simp [dot_cons, ih ys]; ring

lemma dot_smul_left (s : ℝ) (a b : List ℝ) :
    dot (smul s a) b = s * dot a b := by
  induction a generalizing b with
  | nil => simp [dot, smul]
  | cons x xs ih =>
    cases b with
    | nil => simp [dot_nil_right, smul]
    | cons y ys => simp [smul, dot_cons] at *; rw [ih]; ring

lemma dot_smul_right (s : ℝ) (a b : List ℝ) :
    dot a (smul s b) = s * dot a b := by
  induction a generalizing b with
  | nil => simp [dot]
  | cons x xs ih =>
    cases b with
    | nil => simp [dot_nil_right, smul]
    | cons y ys => simp [smul, dot_cons] at *; rw [ih]; ring

lemma dot_add_right (a u v : List ℝ) (h : u.length = v.length) :
    dot a (vecAdd u v) = dot a u + dot a v := by
  induction a generalizing u v with
  | nil => simp [dot]
  | cons x xs ih =>
    cases u with
    | nil =>
      cases v with
      | nil => simp [vecAdd, dot_nil_right]
      | cons _ _ => simp at h
    | cons y ys =>
      cases v with
      | nil => simp at h
      | cons w ws =>
        simp only [List.length_cons, Nat.succ.injEq] at h
        simp [vecAdd, dot_cons] at *
        rw [ih ys ws h]; ring

lemma length_vecAdd (u v : List ℝ) :
    (vecAdd u v).length = min u.length v.length := by
  simp [vecAdd]

lemma length_smul (s : ℝ) (a : List ℝ) : (smul s a).length = a.length := by
  simp [smul]

lemma smul_zero_coeff (a : List ℝ) : smul 0 a = List.replicate a.length 0 := by
  induction a with
  | nil => rfl
  | cons x xs ih =>
    rw [List.length_cons, List.replicate_succ, ← ih]
    simp [smul]

end DotLemmas

section OperatorShape

/-- Under the session length invariants, the slice-assignment form of
`_A_TK0` is the concatenation of the data-fit block and the scaled
identity block. -/
lemma A_TK0_eq_append (ops : SessionOps) (x : List ℝ) (alpha : ℝ)
    (hMA : (ops.MA x).length = ops.Ntot) (hx : x.length = ops.Nvox) :
    A_TK0 ops x alpha = ops.MA x ++ smul (Real.sqrt alpha) x := by
  unfold A_TK0 setSlice
  simp only [List.take_zero, List.nil_append, Nat.zero_add, List.drop_replicate]
  rw [hMA]
  have h1 : (ops.MA x ++ List.replicate ((ops.Ntot + ops.Nvox) - ops.Ntot) (0 : ℝ)).take ops.Ntot
      = ops.MA x := by
    rw [← hMA, List.take_left]
  have h2 : (ops.MA x ++ List.replicate ((ops.Ntot + ops.Nvox) - ops.Ntot) (0 : ℝ)).drop
      (ops.Ntot + (smul (Real.sqrt alpha) x).length) = [] := by
    apply List.drop_eq_nil_of_le
    simp [hMA, length_smul, hx]
  rw [h1, h2, List.append_nil]

lemma A_TK0_length (ops : SessionOps) (x : List ℝ) (alpha : ℝ)
    (hMA : (ops.MA x).length = ops.Ntot) (hx : x.length = ops.Nvox) :
    (A_TK0 ops x alpha).length = ops.Ntot + ops.Nvox := by
  rw [A_TK0_eq_append ops x alpha hMA hx]
  simp [hMA, length_smul, hx]

lemma A_TK1_length (ops : SessionOps) (x : List ℝ) (alpha : ℝ)
    (hMA : (ops.MA x).length = ops.Ntot)
    (hDx : (ops.Dx x).length = x.length)
    (hDy : (ops.Dy x).length = x.length)
    (hDz : (ops.Dz x).length = x.length)
    (hx : x.length = ops.Nvox) :
    (A_TK1 ops x alpha).length = ops.Ntot + 3 * ops.Nvox := by
  unfold A_TK1
  simp [hMA, length_smul, hDx, hDy, hDz, hx]
  ring

end OperatorShape

section ZeroBlock

lemma A_TK0_drop_zero (ops : SessionOps) (x : List ℝ)
    (hMA : (ops.MA x).length = ops.Ntot) (hx : x.length = ops.Nvox) :
    (A_TK0 ops x 0).drop ops.Ntot = List.replicate ops.Nvox (0 : ℝ) := by
  rw [A_TK0_eq_append ops x 0 hMA hx, Real.sqrt_zero, smul_zero_coeff, hx, ← hMA,
    List.drop_left]

lemma A_TK1_drop_zero (ops : SessionOps) (x : List ℝ)
    (hMA : (ops.MA x).length = ops.Ntot)
    (hDx : (ops.Dx x).length = x.length)
    (hDy : (ops.Dy x).length = x.length)
    (hDz : (ops.Dz x).length = x.length)
    (hx : x.length = ops.Nvox) :
    (A_TK1 ops x 0).drop ops.Ntot = List.replicate (3 * ops.Nvox) (0 : ℝ) := by
  unfold A_TK1
  rw [Real.sqrt_zero, smul_zero_coeff, smul_zero_coeff, smul_zero_coeff,
    hDx, hDy, hDz, hx, List.append_assoc, List.append_assoc, ← List.replicate_add,
    ← List.replicate_add, ← hMA, List.drop_left]
  congr 1
  omega

end ZeroBlock

section AdjointIdentity

lemma adjoint_TK0 (ops : SessionOps) (x z : List ℝ) (alpha : ℝ)
    (hMA : (ops.MA x).length = ops.Ntot)
    (hMAadjlen : ∀ w, (ops.MAadj w).length = ops.Nvox)
    (hadj : ∀ w, dot (ops.MA x) w = dot x (ops.MAadj w))
    (hx : x.length = ops.Nvox)
    (hz : z.length = ops.Ntot + ops.Nvox) :
    dot (A_TK0 ops x alpha) z = dot x (A_adj_TK0 ops z alpha) := by
  have hdz : (z.drop ops.Ntot).length = ops.Nvox := by simp [hz]
  have hlen' : z.length - ops.Nvox = ops.Ntot := by omega
  rw [A_TK0_eq_append ops x alpha hMA hx, dot_append, hMA]
  simp only [A_adj_TK0, A_adj_M, hlen']
  rw [dot_add_right x _ _ (by rw [hMAadjlen, length_smul, hdz])]
  rw [dot_smul_left, dot_smul_right, hadj]

lemma adjoint_TK1 (ops : SessionOps) (x z : List ℝ) (alpha : ℝ)
    (hMA : (ops.MA x).length = ops.Ntot)
    (hMAadjlen : ∀ w, (ops.MAadj w).length = ops.Nvox)
    (hadj : ∀ w, dot (ops.MA x) w = dot x (ops.MAadj w))
    (hDx : (ops.Dx x).length = x.length)
    (hDy : (ops.Dy x).length = x.length)
    (hDz : (ops.Dz x).length = x.length)
    (hDxTlen : ∀ w, (ops.DxT w).length = w.length)
    (hDyTlen : ∀ w, (ops.DyT w).length = w.length)
    (hDzTlen : ∀ w, (ops.DzT w).length = w.length)
    (hDxadj : ∀ w, dot (ops.Dx x) w = dot x (ops.DxT w))
    (hDyadj : ∀ w, dot (ops.Dy x) w = dot x (ops.DyT w))
    (hDzadj : ∀ w, dot (ops.Dz x) w = dot x (ops.DzT w))
    (hx : x.length = ops.Nvox)
    (hz : z.length = ops.Ntot + 3 * ops.Nvox) :
    dot (A_TK1 ops x alpha) z = dot x (A_adj_TK1 ops z alpha) := by
  have hzlen1 : ((z.drop ops.Ntot).take ops.Nvox).length = ops.Nvox := by
    simp [hz]; omega
  have hzlen2 : ((z.drop (ops.Ntot + ops.Nvox)).take ops.Nvox).length = ops.Nvox := by
    simp [hz]; omega
  have hzlen3 : (z.drop (ops.Ntot + 2 * ops.Nvox)).length = ops.Nvox := by
    simp [hz]; omega
  have htake3 : (z.drop (ops.Ntot + 2 * ops.Nvox)).take ops.Nvox
      = z.drop (ops.Ntot + 2 * ops.Nvox) := by
    exact List.take_of_length_le (le_of_eq hzlen3)
  -- expand the left-hand side into the four blocks
  unfold A_TK1
  rw [List.append_assoc, List.append_assoc, dot_append, hMA, dot_append,
    length_smul, hDx, hx, dot_append, length_smul, hDy, hx]
  rw [List.drop_drop, List.drop_drop]
  have harith2 : ops.Ntot + ops.Nvox + ops.Nvox = ops.Ntot + 2 * ops.Nvox := by omega
  rw [harith2]
  -- expand the right-hand side
  simp only [A_adj_TK1, A_adj_M]
  rw [dot_add_right x _ _ (by
    simp [length_vecAdd, hMAadjlen, length_smul, hDxTlen, hDyTlen, hDzTlen,
      hzlen1, hzlen2, hzlen3])]
  rw [dot_add_right x _ _ (by
    simp [length_vecAdd, hMAadjlen, length_smul, hDxTlen, hDyTlen, hzlen1, hzlen2])]
  rw [dot_add_right x _ _ (by
    simp [hMAadjlen, length_smul, hDxTlen, hzlen1])]
  rw [dot_smul_left, dot_smul_left, dot_smul_left, dot_smul_right, dot_smul_right,
    dot_smul_right, hadj, hDxadj, hDyadj, hDzadj, htake3]
  ring

end AdjointIdentity

section SolverState

/-- The mutable state of a `TikhonovSolver` object: configuration settings,
the owned HR volume (as the flat voxel vector of its image data), the lazily
cached statistics, and the elapsed-time field. -/
structure TikState where
  regType : String
  alpha : ℝ
  minimizer : String
  iterMax : ℕ
  volume : List ℝ
  residual_ell2 : Option ℝ
  residual_prior : Option ℝ
  elapsed : Option ℝ

/-- `TikhonovSolver.__init__`: stores the configuration unvalidated and
initializes both residual fields to `None`.  The elapsed-time field is
owned by the missing `Solver` base class, so its initial value is an
arbitrary parameter here. -/
def mkTikhonovSolver (regType minimizer : String) (alpha : ℝ) (iterMax : ℕ)
    (volume : List ℝ) (elapsed0 : Option ℝ) : TikState :=
  { regType := regType, alpha := alpha, minimizer := minimizer, iterMax := iterMax,
    volume := volume, residual_ell2 := none, residual_prior := none, elapsed := elapsed0 }

/-- `TikhonovSolver.set_regularization_type`: raises `ValueError` unless the
argument is `TK0` or `TK1`; the raise happens before the assignment, so an
error leaves the stored type untouched. -/
def set_regularization_type (s : TikState) (reg_type : String) : Except String TikState :=
  if reg_type ∉ ["TK0", "TK1"] then
    Except.error "ValueError: regularization type can only be either TK0 or TK1"
  else
    Except.ok { s with regType := reg_type }

/-- `TikhonovSolver._get_residual_prior_TK0`: `np.sum(HR_nda_vec**2)`. -/
noncomputable def get_residual_prior_TK0 (HR_nda_vec : List ℝ) : ℝ :=
  sumSq HR_nda_vec

/-- `TikhonovSolver._get_residual_prior_TK1`: sum of squares of the three
directional derivatives of the (reshaped) volume. -/
noncomputable def get_residual_prior_TK1 (ops : SessionOps) (HR_nda_vec : List ℝ) : ℝ :=
  sumSq (ops.Dx HR_nda_vec) + sumSq (ops.Dy HR_nda_vec) + sumSq (ops.Dz HR_nda_vec)

/-- The `_get_residual_prior` dictionary built in `__init__`, with exactly
the keys `TK0` and `TK1`; looking up any other key raises `KeyError`. -/
noncomputable def get_residual_prior (ops : SessionOps) (reg_type : String) :
    Option (List ℝ → ℝ) :=
  if reg_type = "TK0" then some get_residual_prior_TK0
  else if reg_type = "TK1" then some (get_residual_prior_TK1 ops)
  else none

/-- Modelled from the spec: `_get_residual_ell2` of the missing `Solver`
base class.  Section 4.6: `residual_ell2 = sum_k || M_k(y_k - A_k x) ||^2`
computed through the section 4.3 forward path, i.e. the squared norm of the
masked observations minus the masked stacked forward of the volume. -/
noncomputable def residual_ell2_model (ops : SessionOps) (HR_nda_vec : List ℝ) : ℝ :=
  sumSq (vecSub ops.My (ops.MA HR_nda_vec))

/-- The pair of statistics `compute_statistics` derives from the flattened
volume, or `none` when the regularization type has no entry in the
`_get_residual_prior` dictionary. -/
noncomputable def compute_statistics_values (ops : SessionOps) (reg_type : String)
    (volume : List ℝ) : Option (ℝ × ℝ) :=
  match get_residual_prior ops reg_type with
  | none => none
  | some f => some (residual_ell2_model ops volume, f volume)

/-- `TikhonovSolver.compute_statistics`: recomputes both residual fields
from the current volume. -/
noncomputable def compute_statistics (ops : SessionOps) (s : TikState) :
    Except String TikState :=
  match compute_statistics_values ops s.regType s.volume with
  | none => Except.error ("KeyError: " ++ s.regType)
  | some (e, p) => Except.ok { s with residual_ell2 := some e, residual_prior := some p }

/-- `TikhonovSolver.get_final_cost`: if either residual field is `None`,
first recompute the statistics, then return
`residual_ell2 + alpha * residual_prior` together with the (possibly
updated) object state. -/
noncomputable def get_final_cost (ops : SessionOps) (s : TikState) :
    Except String (ℝ × TikState) :=
  match s.residual_ell2, s.residual_prior with
  | some e, some p => Except.ok (e + s.alpha * p, s)
  | _, _ =>
    match compute_statistics_values ops s.regType s.volume with
    | none => Except.error ("KeyError: " ++ s.regType)
    | some (e, p) =>
      Except.ok (e + s.alpha * p,
        { s with residual_ell2 := some e, residual_prior := some p })

/-- `TikhonovSolver.print_statistics`: prints a header, the elapsed time and
the two residuals in that order; formatting `None` through
`timedelta(seconds=...)` or `"%.3e" % ...` raises `TypeError`.  The printed
text itself is outside the modelled scope, so the result carries no data. -/
def print_statistics (s : TikState) : Except String Unit :=
  match s.elapsed with
  | none => Except.error "TypeError: unsupported type for timedelta seconds component"
  | some _ =>
    match s.residual_ell2 with
    | none => Except.error "TypeError: float argument required, not NoneType"
    | some _ =>
      match s.residual_prior with
      | none => Except.error "TypeError: float argument required, not NoneType"
      | some _ => Except.ok ()

/-- `TikhonovSolver._get_b`: allocate `N_voxels` zeros and write the masked
stacked observations `M y` into `b[0:N_total_slice_voxels]`. -/
noncomputable def get_b (ops : SessionOps) (N_voxels : ℕ) : List ℝ :=
  setSlice (List.replicate N_voxels (0 : ℝ)) 0 ops.My

/-- The size computation at the top of `run_reconstruction`: the branch
tests `reg_type in ["TK0"]`, so every other string falls into the
first-order branch with `N_total_slice_voxels + 3*N_voxels_HR_volume`. -/
def run_reconstruction_N_voxels (ops : SessionOps) (reg_type : String) : ℕ :=
  if reg_type ∈ ["TK0"] then ops.Ntot + ops.Nvox
  else ops.Ntot + 3 * ops.Nvox

/-- The `_A` dictionary built in `__init__`, with exactly the keys `TK0`
and `TK1`. -/
noncomputable def A_dict (ops : SessionOps) (reg_type : String) :
    Option (List ℝ → ℝ → List ℝ) :=
  if reg_type = "TK0" then some (A_TK0 ops)
  else if reg_type = "TK1" then some (A_TK1 ops)
  else none

/-- The `_A_adj` dictionary built in `__init__`, with exactly the keys
`TK0` and `TK1`. -/
noncomputable def A_adj_dict (ops : SessionOps) (reg_type : String) :
    Option (List ℝ → ℝ → List ℝ) :=
  if reg_type = "TK0" then some (A_adj_TK0 ops)
  else if reg_type = "TK1" then some (A_adj_TK1 ops)
  else none

/-- The type of the per-minimizer solver routines stored in the
`_get_approximate_solution` dictionary: forward closure, adjoint closure
and right-hand side to flat solution vector. -/
def SolveFn : Type := (List ℝ → List ℝ) → (List ℝ → List ℝ) → List ℝ → List ℝ

/-- Modelled from the spec: the `_get_approximate_solution` dictionary of
the missing `Solver` base class; the constructor docstring documents the
possible minimizers as `lsmr`, `lsqr` and `L-BFGS-B`, and a Python dict
lookup on any other key raises `KeyError`. -/
def get_approximate_solution (lsmr lsqr lbfgsb : SolveFn) : String → Option SolveFn :=
  fun minimizer =>
    if minimizer = "lsmr" then some lsmr
    else if minimizer = "lsqr" then some lsqr
    else if minimizer = "L-BFGS-B" then some lbfgsb
    else none

/-- `TikhonovSolver.run_reconstruction`: computes the augmented system
size, builds the right-hand side and the operator closures, dispatches on
the minimizer name, runs the solver, and only then overwrites the owned
volume and the elapsed time.  A failed dictionary lookup raises before any
mutation.  (In the source the `_A`/`_A_adj` lookups sit inside the
closures and raise on their first call from within the minimizer; they are
checked here before the minimizer is invoked.)  The wall-clock duration is
the parameter `wall`. -/
noncomputable def run_reconstruction (ops : SessionOps)
    (dispatch : String → Option SolveFn) (wall : ℝ) (s : TikState) :
    Except String TikState :=
  let N_voxels := run_reconstruction_N_voxels ops s.regType
  let b := get_b ops N_voxels
  match dispatch s.minimizer with
  | none => Except.error ("KeyError: " ++ s.minimizer)
  | some solve =>
    match A_dict ops s.regType, A_adj_dict ops s.regType with
    | some Afw, some Abw =>
      let HR_nda_vec := solve (fun x => Afw x s.alpha) (fun z => Abw z s.alpha) b
      Except.ok { s with volume := HR_nda_vec, elapsed := some wall }
    | _, _ => Except.error ("KeyError: " ++ s.regType)

end SolverState

section RegistrationModel

/-- The data captured by a `Registration` object after
`_initialize_class`: the flattened fixed image, the flattened binary mask
of the fixed image, and the opaque ITK filters as abstract maps from the
6-dof parameter vector to the flattened simulated image
(`_execute_oriented_gaussian_interpolate_image_filter` with
`use_jacobian=False`) respectively to the per-voxel rows of the forward
operator Jacobian (the `use_jacobian=True` path composed with the
transform-gradient filter, i.e. the rows assembled by the loop in
`_get_jacobian_residual_data_fit` before masking and negation). -/
structure RegParams where
  fixedFlat : List ℝ
  mask : List ℝ
  simulate : List ℝ → List ℝ
  jacRows : List ℝ → List (List ℝ)

/-- `Registration._get_residual_data_fit`: flatten `y_fixed - A(theta) x`,
then, when the fixed mask is in use, multiply elementwise by the mask. -/
def get_residual_data_fit (rp : RegParams) (use_fixed_mask : Bool)
    (parameters : List ℝ) : List ℝ :=
  let residual := vecSub rp.fixedFlat (rp.simulate parameters)
  if use_fixed_mask then vecMul residual rp.mask else residual

/-- `Registration._get_jacobian_residual_data_fit`: assemble the per-voxel
rows of the forward Jacobian, mask them row-wise when the fixed mask is in
use (`jacobian_nda * mask[:, np.newaxis]`), and return the negation. -/
def get_jacobian_residual_data_fit (rp : RegParams) (use_fixed_mask : Bool)
    (parameters : List ℝ) : List (List ℝ) :=
  let jacobian_nda := rp.jacRows parameters
  let masked :=
    if use_fixed_mask then
      List.zipWith (fun row m => row.map (fun t => t * m)) jacobian_nda rp.mask
    else jacobian_nda
  masked.map (fun row => row.map (fun t => -t))

end RegistrationModel

section FilenameModel

/-- Configuration tuple consumed by `get_setting_specific_filename`:
the stack count `len(self._stacks)`, the regularization type, the
minimizer name, the regularization weight, the Python rendering
`str(self._alpha)` of that weight, and the iteration bound.  The weight is
carried as a rational so that the `self._alpha > 0` test is exact; its
decimal rendering is carried alongside because Python float formatting is
outside the embedding. -/
structure TikFilenameConfig where
  n_stacks : ℕ
  reg_type : String
  minimizer : String
  alpha : ℚ
  alphaStr : String
  iter_max : ℕ

/-- One character of `filename.replace(".", "p")`. -/
def replaceDotChar (c : Char) : Char := if c = '.' then 'p' else c

/-- `str.replace(".", "p")` for the single-character pattern `"."`. -/
def replaceDots (s : String) : String := String.mk (s.data.map replaceDotChar)

/-- Characters that can occur in the `repr` of a finite Python float:
digits, the decimal point, a sign, or the exponent marker. -/
def floatReprChar (c : Char) : Bool :=
  c.isDigit || c == '.' || c == '-' || c == '+' || c == 'e'

/-- `TikhonovSolver.get_setting_specific_filename`: concatenates the
prefix, the stack count, the regularization type (only when `alpha > 0`),
the minimizer, alpha and the iteration bound, then replaces every dot by
`p`. -/
def get_setting_specific_filename (cfg : TikFilenameConfig) (pre : String) : String :=
  let f1 := pre ++ "_stacks" ++ toString cfg.n_stacks
  let f2 := if 0 < cfg.alpha then f1 ++ "_" ++ cfg.reg_type else f1
  let f3 := f2 ++ "_" ++ cfg.minimizer
  let f4 := f3 ++ "_alpha" ++ cfg.alphaStr
  let f5 := f4 ++ "_itermax" ++ toString cfg.iter_max
  replaceDots f5

end FilenameModel

section ConcreteSession

/-- A minimal concrete session used to instantiate the theorems: one slice
voxel, one volume voxel, a data-fit forward that reads the first voxel and
its (exact) adjoint, identity differential operators, and a zero
observation. -/
noncomputable def conc_ops : SessionOps where
  Ntot := 1
  Nvox := 1
  MA := fun v => [v.headD 0]
  MAadj := fun w => [w.headD 0]
  My := [0]
  Dx := id
  Dy := id
  Dz := id
  DxT := id
  DyT := id
  DzT := id

lemma dot_single_left (a : ℝ) (w : List ℝ) : dot [a] w = a * w.headD 0 := by
  cases w <;> simp [dot]

lemma dot_single_right (v : List ℝ) (c : ℝ) : dot v [c] = v.headD 0 * c := by
  cases v <;> simp [dot]

lemma conc_MA_adjoint (v w : List ℝ) :
    dot (conc_ops.MA v) w = dot v (conc_ops.MAadj w) := by
  simp [conc_ops, dot_single_left, dot_single_right]

lemma conc_MA_length (v : List ℝ) : (conc_ops.MA v).length = conc_ops.Ntot := rfl

lemma conc_MAadj_length (w : List ℝ) : (conc_ops.MAadj w).length = conc_ops.Nvox := rfl

end ConcreteSession

section ClaimC1

/-- C1: for every volume vector `x`, augmented vectors `z0` and `z1` of the
TK0- respectively TK1-matching sizes, and every `alpha ≥ 0`, assuming the
data-fit halves `_MA` and `_A_adj_M` are adjoint (and the differential
operators satisfy their section 4.1 adjoint contract), the augmented
forward and adjoint maps are exact adjoints of one combined operator:
`<A(x,alpha), z> = <x, A_adj(z,alpha)>` for both regularization types. -/
theorem augmented_adjoint_consistency (ops : SessionOps) (x z0 z1 : List ℝ) (alpha : ℝ)
    (halpha : 0 ≤ alpha)
    (hMA : (ops.MA x).length = ops.Ntot)
    (hMAadjlen : ∀ w, (ops.MAadj w).length = ops.Nvox)
    (hadj : ∀ w, dot (ops.MA x) w = dot x (ops.MAadj w))
    (hDx : (ops.Dx x).length = x.length)
    (hDy : (ops.Dy x).length = x.length)
    (hDz : (ops.Dz x).length = x.length)
    (hDxTlen : ∀ w, (ops.DxT w).length = w.length)
    (hDyTlen : ∀ w, (ops.DyT w).length = w.length)
    (hDzTlen : ∀ w, (ops.DzT w).length = w.length)
    (hDxadj : ∀ w, dot (ops.Dx x) w = dot x (ops.DxT w))
    (hDyadj : ∀ w, dot (ops.Dy x) w = dot x (ops.DyT w))
    (hDzadj : ∀ w, dot (ops.Dz x) w = dot x (ops.DzT w))
    (hx : x.length = ops.Nvox)
    (hz0 : z0.length = ops.Ntot + ops.Nvox)
    (hz1 : z1.length = ops.Ntot + 3 * ops.Nvox) :
    dot (A_TK0 ops x alpha) z0 = dot x (A_adj_TK0 ops z0 alpha)
    ∧ dot (A_TK1 ops x alpha) z1 = dot x (A_adj_TK1 ops z1 alpha) :=
  ⟨adjoint_TK0 ops x z0 alpha hMA hMAadjlen hadj hx hz0,
   adjoint_TK1 ops x z1 alpha hMA hMAadjlen hadj hDx hDy hDz hDxTlen hDyTlen hDzTlen
     hDxadj hDyadj hDzadj hx hz1⟩

/-- Witness for C1 at the concrete one-voxel session, `x = [1]`,
`z0 = [2,3]`, `z1 = [2,3,4,5]`, `alpha = 0`. -/
theorem augmented_adjoint_consistency_witness :
    (0 : ℝ) ≤ 0
    ∧ (dot (A_TK0 conc_ops [1] 0) [2, 3] = dot [1] (A_adj_TK0 conc_ops [2, 3] 0)
       ∧ dot (A_TK1 conc_ops [1] 0) [2, 3, 4, 5] = dot [1] (A_adj_TK1 conc_ops [2, 3, 4, 5] 0)) :=
  ⟨le_refl 0,
   augmented_adjoint_consistency conc_ops [1] [2, 3] [2, 3, 4, 5] 0 (le_refl 0)
     (conc_MA_length [1]) conc_MAadj_length (conc_MA_adjoint [1])
     rfl rfl rfl (fun w => rfl) (fun w => rfl) (fun w => rfl)
     (fun w => rfl) (fun w => rfl) (fun w => rfl) rfl rfl rfl⟩

end ClaimC1

section ClaimC2

lemma A_adj_TK0_eq (ops : SessionOps) (z : List ℝ) (alpha : ℝ)
    (hz : z.length = ops.Ntot + ops.Nvox) :
    A_adj_TK0 ops z alpha
      = vecAdd (ops.MAadj (z.take ops.Ntot)) (smul (Real.sqrt alpha) (z.drop ops.Ntot)) := by
  simp only [A_adj_TK0, A_adj_M]
  rw [show z.length - ops.Nvox = ops.Ntot by omega]

/-- C2: the TK0 forward operator is the concatenation
`[MA(x); sqrt(alpha)*x]` of total length `N_total_slice_voxels + N_voxels`;
the TK0 adjoint is the data-fit adjoint of the upper block plus
`sqrt(alpha)` times the last `N_voxels` entries; and with `alpha = 0` the
regularization block of the forward output is exactly all-zero for both
TK0 and TK1 while the operator shape is unchanged. -/
theorem A_TK0_block_structure (ops : SessionOps) (x : List ℝ) (alpha : ℝ)
    (halpha : 0 ≤ alpha)
    (hMA : (ops.MA x).length = ops.Ntot)
    (hDx : (ops.Dx x).length = x.length)
    (hDy : (ops.Dy x).length = x.length)
    (hDz : (ops.Dz x).length = x.length)
    (hx : x.length = ops.Nvox) :
    A_TK0 ops x alpha = ops.MA x ++ smul (Real.sqrt alpha) x
    ∧ (A_TK0 ops x alpha).length = ops.Ntot + ops.Nvox
    ∧ (∀ z, z.length = ops.Ntot + ops.Nvox →
        A_adj_TK0 ops z alpha
          = vecAdd (ops.MAadj (z.take ops.Ntot)) (smul (Real.sqrt alpha) (z.drop ops.Ntot)))
    ∧ (A_TK0 ops x 0).drop ops.Ntot = List.replicate ops.Nvox (0 : ℝ)
    ∧ (A_TK1 ops x 0).drop ops.Ntot = List.replicate (3 * ops.Nvox) (0 : ℝ)
    ∧ (A_TK0 ops x 0).length = ops.Ntot + ops.Nvox
    ∧ (A_TK1 ops x 0).length = ops.Ntot + 3 * ops.Nvox :=
  ⟨A_TK0_eq_append ops x alpha hMA hx,
   A_TK0_length ops x alpha hMA hx,
   fun z hz => A_adj_TK0_eq ops z alpha hz,
   A_TK0_drop_zero ops x hMA hx,
   A_TK1_drop_zero ops x hMA hDx hDy hDz hx,
   A_TK0_length ops x 0 hMA hx,
   A_TK1_length ops x 0 hMA hDx hDy hDz hx⟩

/-- Witness for C2 at the concrete one-voxel session, `x = [5]`,
`alpha = 1`. -/
theorem A_TK0_block_structure_witness :
    (0 : ℝ) ≤ 1
    ∧ (A_TK0 conc_ops [5] 1 = conc_ops.MA [5] ++ smul (Real.sqrt 1) [5]
       ∧ (A_TK0 conc_ops [5] 1).length = conc_ops.Ntot + conc_ops.Nvox
       ∧ (∀ z, z.length = conc_ops.Ntot + conc_ops.Nvox →
           A_adj_TK0 conc_ops z 1
             = vecAdd (conc_ops.MAadj (z.take conc_ops.Ntot))
                 (smul (Real.sqrt 1) (z.drop conc_ops.Ntot)))
       ∧ (A_TK0 conc_ops [5] 0).drop conc_ops.Ntot = List.replicate conc_ops.Nvox (0 : ℝ)
       ∧ (A_TK1 conc_ops [5] 0).drop conc_ops.Ntot
           = List.replicate (3 * conc_ops.Nvox) (0 : ℝ)
       ∧ (A_TK0 conc_ops [5] 0).length = conc_ops.Ntot + conc_ops.Nvox
       ∧ (A_TK1 conc_ops [5] 0).length = conc_ops.Ntot + 3 * conc_ops.Nvox) :=
  ⟨zero_le_one,
   A_TK0_block_structure conc_ops [5] 1 zero_le_one (conc_MA_length [5]) rfl rfl rfl rfl⟩

end ClaimC2

section ClaimC3

lemma get_b_eq (ops : SessionOps) (N : ℕ) (hMy : ops.My.length = ops.Ntot) :
    get_b ops N = ops.My ++ List.replicate (N - ops.Ntot) (0 : ℝ) := by
  unfold get_b setSlice
  simp [List.drop_replicate, hMy]

/-- C3: the right-hand side `b` built for a reconstruction run has its
first `N_total_slice_voxels` entries equal to the masked stacked
observations `M y`, and every remaining entry — `N_voxels` of them for TK0,
`3*N_voxels` for TK1 — exactly zero. -/
theorem get_b_structure (ops : SessionOps) (hMy : ops.My.length = ops.Ntot) :
    ((get_b ops (run_reconstruction_N_voxels ops "TK0")).take ops.Ntot = ops.My
     ∧ (get_b ops (run_reconstruction_N_voxels ops "TK0")).drop ops.Ntot
         = List.replicate ops.Nvox (0 : ℝ))
    ∧ ((get_b ops (run_reconstruction_N_voxels ops "TK1")).take ops.Ntot = ops.My
       ∧ (get_b ops (run_reconstruction_N_voxels ops "TK1")).drop ops.Ntot
           = List.replicate (3 * ops.Nvox) (0 : ℝ)) := by
  have h0 : run_reconstruction_N_voxels ops "TK0" = ops.Ntot + ops.Nvox := by
    simp [run_reconstruction_N_voxels]
  have h1 : run_reconstruction_N_voxels ops "TK1" = ops.Ntot + 3 * ops.Nvox := by
    simp [run_reconstruction_N_voxels]
  rw [h0, h1, get_b_eq ops _ hMy, get_b_eq ops _ hMy]
  refine ⟨⟨?_, ?_⟩, ?_, ?_⟩
  · rw [← hMy, List.take_left]
  · rw [← hMy, List.drop_left]
    congr 1
    omega
  · rw [← hMy, List.take_left]
  · rw [← hMy, List.drop_left]
    congr 1
    omega

/-- Witness for C3 at the concrete one-voxel session. -/
theorem get_b_structure_witness :
    conc_ops.My.length = conc_ops.Ntot
    ∧ (((get_b conc_ops (run_reconstruction_N_voxels conc_ops "TK0")).take conc_ops.Ntot
          = conc_ops.My
        ∧ (get_b conc_ops (run_reconstruction_N_voxels conc_ops "TK0")).drop conc_ops.Ntot
            = List.replicate conc_ops.Nvox (0 : ℝ))
       ∧ ((get_b conc_ops (run_reconstruction_N_voxels conc_ops "TK1")).take conc_ops.Ntot
            = conc_ops.My
          ∧ (get_b conc_ops (run_reconstruction_N_voxels conc_ops "TK1")).drop conc_ops.Ntot
              = List.replicate (3 * conc_ops.Nvox) (0 : ℝ))) :=
  ⟨rfl, get_b_structure conc_ops rfl⟩

end ClaimC3

section ClaimC4

/-- C4: if the configured minimizer has no entry in the dispatch
dictionary, `run_reconstruction` fails with the lookup error and the owned
volume is never mutated; and whenever a run does succeed, the stored
volume is exactly the solution vector produced by the dispatched solver on
the constructed closures and right-hand side — mutation happens only after
a solution has been obtained. -/
theorem run_reconstruction_failure_preserves_volume (ops : SessionOps)
    (lsmr lsqr lbfgsb : SolveFn) (wall : ℝ) (s : TikState)
    (h1 : s.minimizer ≠ "lsmr") (h2 : s.minimizer ≠ "lsqr") (h3 : s.minimizer ≠ "L-BFGS-B") :
    run_reconstruction ops (get_approximate_solution lsmr lsqr lbfgsb) wall s
      = Except.error ("KeyError: " ++ s.minimizer)
    ∧ ∀ (dispatch : String → Option SolveFn) (u : TikState),
        run_reconstruction ops dispatch wall s = Except.ok u →
        ∃ solve Afw Abw,
          dispatch s.minimizer = some solve
          ∧ A_dict ops s.regType = some Afw
          ∧ A_adj_dict ops s.regType = some Abw
          ∧ u.volume = solve (fun x => Afw x s.alpha) (fun z => Abw z s.alpha)
              (get_b ops (run_reconstruction_N_voxels ops s.regType))
          ∧ u.regType = s.regType
          ∧ u.residual_ell2 = s.residual_ell2
          ∧ u.residual_prior = s.residual_prior := by
  constructor
  · simp [run_reconstruction, get_approximate_solution, h1, h2, h3]
  · intro dispatch u hu
    unfold run_reconstruction at hu
    rcases hdm : dispatch s.minimizer with _ | solve
    · rw [hdm] at hu
      exact absurd hu (by simp)
    · rw [hdm] at hu
      rcases hA : A_dict ops s.regType with _ | Afw
      · rw [hA] at hu
        exact absurd hu (by simp)
      · rw [hA] at hu
        rcases hB : A_adj_dict ops s.regType with _ | Abw
        · rw [hB] at hu
          exact absurd hu (by simp)
        · rw [hB] at hu
          simp only [Except.ok.injEq] at hu
          refine ⟨solve, Afw, Abw, rfl, rfl, rfl, ?_, ?_, ?_, ?_⟩ <;> rw [← hu]

/-- A solver stub used to instantiate the run-related theorems; it ignores
the operator closures and returns the fixed vector `[2]`. -/
noncomputable def conc_solver : SolveFn := fun _ _ _ => [2]

/-- A solver state whose minimizer name has no dictionary entry. -/
noncomputable def conc_state_badmin : TikState :=
  mkTikhonovSolver "TK0" "gradient-descent" 0 10 [1] none

/-- Witness for C4: the dispatch lookup for `gradient-descent` fails and
the run errors out. -/
theorem run_reconstruction_failure_preserves_volume_witness :
    conc_state_badmin.minimizer ≠ "lsmr"
    ∧ run_reconstruction conc_ops
        (get_approximate_solution conc_solver conc_solver conc_solver) 0 conc_state_badmin
        = Except.error ("KeyError: " ++ conc_state_badmin.minimizer) :=
  ⟨by decide,
   (run_reconstruction_failure_preserves_volume conc_ops conc_solver conc_solver conc_solver
     0 conc_state_badmin (by decide) (by decide) (by decide)).1⟩

end ClaimC4

section ClaimC5

/-- C5 counterexample: the constructor accepts the invalid regularization
type `TK2` without any rejection and stores it, and the size computation
of `run_reconstruction` treats `TK2` exactly like the valid type `TK1`
(first-order branch), so invalid values are neither rejected at every
entry point nor kept away from the valid code paths. -/
theorem invalid_reg_type_not_rejected_at_entry :
    (mkTikhonovSolver "TK2" "lsmr" 1 10 [0] none).regType = "TK2"
    ∧ "TK2" ∉ ["TK0", "TK1"]
    ∧ run_reconstruction_N_voxels conc_ops "TK2" = run_reconstruction_N_voxels conc_ops "TK1"
    ∧ run_reconstruction_N_voxels conc_ops "TK0" = 2
    ∧ run_reconstruction_N_voxels conc_ops "TK2" = 4 := by
  refine ⟨rfl, by decide, ?_, ?_, ?_⟩ <;>
    simp [run_reconstruction_N_voxels, conc_ops]

/-- C5 amended: `set_regularization_type` rejects every value outside
`{TK0, TK1}` with a descriptive `ValueError` (leaving the stored type
unchanged, since the raise precedes the assignment) and stores exactly the
valid values; the constructor, however, stores an arbitrary regularization
type without validation, and the `run_reconstruction` size computation
silently treats every non-`TK0` string as first-order Tikhonov. -/
theorem set_regularization_type_validation (ops : SessionOps) (s : TikState) (rt : String) :
    (rt ∉ ["TK0", "TK1"] →
      set_regularization_type s rt
        = Except.error "ValueError: regularization type can only be either TK0 or TK1")
    ∧ (rt ∈ ["TK0", "TK1"] →
        set_regularization_type s rt = Except.ok { s with regType := rt })
    ∧ (∀ m α im vol e0, (mkTikhonovSolver rt m α im vol e0).regType = rt)
    ∧ (rt ≠ "TK0" → run_reconstruction_N_voxels ops rt = ops.Ntot + 3 * ops.Nvox) := by
  refine ⟨?_, ?_, fun m α im vol e0 => rfl, ?_⟩
  · intro h
    simp [set_regularization_type, h]
  · intro h
    simp [set_regularization_type, h]
  · intro h
    simp [run_reconstruction_N_voxels, h]

/-- Witness for C5 (amended) at the invalid type `TK9`. -/
theorem set_regularization_type_validation_witness :
    "TK9" ∉ ["TK0", "TK1"]
    ∧ set_regularization_type conc_state_badmin "TK9"
        = Except.error "ValueError: regularization type can only be either TK0 or TK1" :=
  ⟨by decide,
   (set_regularization_type_validation conc_ops conc_state_badmin "TK9").1 (by decide)⟩

end ClaimC5

section ClaimC6

/-- C6: after `compute_statistics` has run, `get_final_cost` returns
exactly `residual_ell2 + alpha * residual_prior`, where the prior is the
sum of squares of the volume for TK0 and the sum of squares of the three
directional derivatives for TK1; and when the statistics are not cached,
`get_final_cost` first recomputes them via the `compute_statistics`
computation. -/
theorem get_final_cost_decomposition (ops : SessionOps) (s : TikState) :
    (s.regType = "TK0" →
      ∃ u, compute_statistics ops s = Except.ok u
        ∧ get_final_cost ops u
            = Except.ok (residual_ell2_model ops s.volume + s.alpha * sumSq s.volume, u))
    ∧ (s.regType = "TK1" →
      ∃ u, compute_statistics ops s = Except.ok u
        ∧ get_final_cost ops u
            = Except.ok (residual_ell2_model ops s.volume
                + s.alpha * (sumSq (ops.Dx s.volume) + sumSq (ops.Dy s.volume)
                    + sumSq (ops.Dz s.volume)), u))
    ∧ ((s.residual_ell2 = none ∨ s.residual_prior = none) →
        get_final_cost ops s
          = (compute_statistics ops s).bind (fun u => get_final_cost ops u)) := by
  refine ⟨?_, ?_, ?_⟩
  · intro h
    have hv : compute_statistics_values ops s.regType s.volume
        = some (residual_ell2_model ops s.volume, sumSq s.volume) := by
      simp [compute_statistics_values, get_residual_prior, h, get_residual_prior_TK0]
    refine ⟨{ s with
        residual_ell2 := some (residual_ell2_model ops s.volume),
        residual_prior := some (sumSq s.volume) }, ?_, ?_⟩
    · simp [compute_statistics, hv]
    · simp [get_final_cost]
  · intro h
    have hv : compute_statistics_values ops s.regType s.volume
        = some (residual_ell2_model ops s.volume,
            sumSq (ops.Dx s.volume) + sumSq (ops.Dy s.volume) + sumSq (ops.Dz s.volume)) := by
      simp [compute_statistics_values, get_residual_prior, h, get_residual_prior_TK1]
    refine ⟨{ s with
        residual_ell2 := some (residual_ell2_model ops s.volume),
        residual_prior := some (sumSq (ops.Dx s.volume) + sumSq (ops.Dy s.volume)
          + sumSq (ops.Dz s.volume)) }, ?_, ?_⟩
    · simp [compute_statistics, hv]
    · simp [get_final_cost]
  · intro h
    rcases hv : compute_statistics_values ops s.regType s.volume with _ | ep
    · rcases h with h | h
      · rcases hp : s.residual_prior with _ | p <;>
          simp [get_final_cost, compute_statistics, h, hp, hv, Except.bind]
      · rcases he : s.residual_ell2 with _ | e <;>
          simp [get_final_cost, compute_statistics, h, he, hv, Except.bind]
    · rcases h with h | h
      · rcases hp : s.residual_prior with _ | p <;>
          simp [get_final_cost, compute_statistics, h, hp, hv, Except.bind]
      · rcases he : s.residual_ell2 with _ | e <;>
          simp [get_final_cost, compute_statistics, h, he, hv, Except.bind]

/-- A freshly constructed solver state with a valid configuration. -/
noncomputable def conc_state0 : TikState := mkTikhonovSolver "TK0" "lsmr" 0 10 [1] none

/-- Witness for C6 at the concrete TK0 session. -/
theorem get_final_cost_decomposition_witness :
    conc_state0.regType = "TK0"
    ∧ ∃ u, compute_statistics conc_ops conc_state0 = Except.ok u
        ∧ get_final_cost conc_ops u
            = Except.ok (residual_ell2_model conc_ops conc_state0.volume
                + conc_state0.alpha * sumSq conc_state0.volume, u) :=
  ⟨rfl, (get_final_cost_decomposition conc_ops conc_state0).1 rfl⟩

end ClaimC6

section ClaimC7

/-- The state after `compute_statistics` on the fresh session: both
residuals evaluate to `1` on the initial volume `[1]`. -/
noncomputable def conc_state1 : TikState :=
  { conc_state0 with residual_ell2 := some 1, residual_prior := some 1 }

/-- The state after a successful `run_reconstruction` from `conc_state1`:
the solver stub has replaced the volume by `[2]`, and the cached residual
fields are untouched. -/
noncomputable def conc_state2 : TikState :=
  { conc_state1 with volume := [2], elapsed := some 7 }

/-- The minimizer dispatch table populated with the solver stub. -/
noncomputable def conc_dispatch : String → Option SolveFn :=
  get_approximate_solution conc_solver conc_solver conc_solver

lemma conc_compute : compute_statistics conc_ops conc_state0 = Except.ok conc_state1 := by
  simp [compute_statistics, compute_statistics_values, get_residual_prior,
    get_residual_prior_TK0, residual_ell2_model, sumSq, vecSub, conc_state0, conc_state1,
    mkTikhonovSolver, conc_ops]

lemma conc_run : run_reconstruction conc_ops conc_dispatch 7 conc_state1 = Except.ok conc_state2 := by
  simp [run_reconstruction, conc_dispatch, get_approximate_solution, A_dict, A_adj_dict,
    conc_solver, conc_state1, conc_state2, conc_state0, mkTikhonovSolver]

lemma conc_cost : get_final_cost conc_ops conc_state2 = Except.ok (1, conc_state2) := by
  simp [get_final_cost, conc_state2, conc_state1, conc_state0, mkTikhonovSolver]

lemma conc_fresh_resid : residual_ell2_model conc_ops conc_state2.volume = 4 := by
  simp [residual_ell2_model, conc_ops, sumSq, vecSub, conc_state2, conc_state1,
    conc_state0, mkTikhonovSolver]
  norm_num

/-- C7 counterexample: statistics are computed on the initial volume `[1]`
(both residuals `1`), a completed `run_reconstruction` replaces the volume
by `[2]`, and the next `get_final_cost` still returns the stale value `1`
from the cache even though recomputing the data residual on the newly
solved volume yields `4` — the cache is not invalidated by the run. -/
theorem stale_statistics_after_run :
    compute_statistics conc_ops conc_state0 = Except.ok conc_state1
    ∧ run_reconstruction conc_ops conc_dispatch 7 conc_state1 = Except.ok conc_state2
    ∧ conc_state2.volume = [2]
    ∧ get_final_cost conc_ops conc_state2 = Except.ok (1, conc_state2)
    ∧ residual_ell2_model conc_ops conc_state2.volume = 4
    ∧ (1 : ℝ) ≠ 4 :=
  ⟨conc_compute, conc_run, rfl, conc_cost, conc_fresh_resid, by norm_num⟩

/-- C7 amended: a completed `run_reconstruction` leaves the cached residual
fields exactly as they were — the cache is never invalidated by a run —
and `get_final_cost` recomputes nothing whenever both fields are cached,
returning the cached combination. -/
theorem run_reconstruction_keeps_cached_statistics (ops : SessionOps)
    (dispatch : String → Option SolveFn) (wall : ℝ) (s u : TikState)
    (h : run_reconstruction ops dispatch wall s = Except.ok u) :
    u.residual_ell2 = s.residual_ell2
    ∧ u.residual_prior = s.residual_prior
    ∧ (∀ e p, s.residual_ell2 = some e → s.residual_prior = some p →
        get_final_cost ops s = Except.ok (e + s.alpha * p, s)) := by
  unfold run_reconstruction at h
  rcases hdm : dispatch s.minimizer with _ | solve
  · rw [hdm] at h
    exact absurd h (by simp)
  · rw [hdm] at h
    rcases hA : A_dict ops s.regType with _ | Afw
    · rw [hA] at h
      exact absurd h (by simp)
    · rw [hA] at h
      rcases hB : A_adj_dict ops s.regType with _ | Abw
      · rw [hB] at h
        exact absurd h (by simp)
      · rw [hB] at h
        simp only [Except.ok.injEq] at h
        refine ⟨by rw [← h], by rw [← h], ?_⟩
        intro e p he hp
        simp [get_final_cost, he, hp]

/-- Witness for C7 (amended) on the concrete successful run. -/
theorem run_reconstruction_keeps_cached_statistics_witness :
    run_reconstruction conc_ops conc_dispatch 7 conc_state1 = Except.ok conc_state2
    ∧ (conc_state2.residual_ell2 = conc_state1.residual_ell2
       ∧ conc_state2.residual_prior = conc_state1.residual_prior
       ∧ (∀ e p, conc_state1.residual_ell2 = some e → conc_state1.residual_prior = some p →
           get_final_cost conc_ops conc_state1
             = Except.ok (e + conc_state1.alpha * p, conc_state1))) :=
  ⟨conc_run,
   run_reconstruction_keeps_cached_statistics conc_ops conc_dispatch 7 conc_state1
     conc_state2 conc_run⟩

end ClaimC7

section ClaimC9

lemma vecMul_comm (a b : List ℝ) : vecMul a b = vecMul b a := by
  induction a generalizing b with
  | nil => cases b <;> simp [vecMul]
  | cons x xs ih =>
    cases b with
    | nil => simp [vecMul]
    | cons y ys =>
      simp [vecMul] at *
      exact ⟨mul_comm x y, ih ys⟩

lemma mask_rows_neg (J : List (List ℝ)) (mask : List ℝ) :
    (List.zipWith (fun row m => row.map (fun t => t * m)) J mask).map
        (fun row => row.map (fun t => -t))
      = List.zipWith (fun m row => row.map (fun t => m * t)) mask
          (J.map (fun row => row.map (fun t => -t))) := by
  induction J generalizing mask with
  | nil => cases mask <;> simp
  | cons r J' ih =>
    cases mask with
    | nil => simp
    | cons m ms =>
      simp only [List.zipWith_cons_cons, List.map_cons, List.map_map, List.cons.injEq]
      have hfun : ((fun t : ℝ => -t) ∘ fun t => t * m) = (fun t => m * t) ∘ fun t => -t := by
        funext t
        simp [mul_comm]
      exact ⟨by rw [hfun], ih ms⟩

/-- C9: with the fixed mask enabled, the registration data-fit residual is
the elementwise product of the mask with the flattened difference
`y_fixed - A(theta) x`, formed after the opaque forward simulation, and
the returned Jacobian is the row-wise masking (by the same mask) of the
negated forward-operator Jacobian. -/
theorem registration_masking_outside_simulate (rp : RegParams) (parameters : List ℝ) :
    get_residual_data_fit rp true parameters
      = vecMul rp.mask (vecSub rp.fixedFlat (rp.simulate parameters))
    ∧ get_jacobian_residual_data_fit rp true parameters
        = List.zipWith (fun m row => row.map (fun t => m * t)) rp.mask
            ((rp.jacRows parameters).map (fun row => row.map (fun t => -t))) := by
  constructor
  · simp only [get_residual_data_fit, if_true]
    exact vecMul_comm _ _
  · simp only [get_jacobian_residual_data_fit, if_true]
    exact mask_rows_neg _ _

end ClaimC9

section ClaimC10

/-- C10: on a freshly constructed solver — whatever the configuration and
whatever initial value the base class gave the elapsed-time field —
`print_statistics` raises instead of printing a summary, because the
residual fields are `None` and cannot be formatted. -/
theorem print_statistics_before_compute_raises (regType minimizer : String) (alpha : ℝ)
    (iterMax : ℕ) (volume : List ℝ) (elapsed0 : Option ℝ) :
    ∃ msg, print_statistics (mkTikhonovSolver regType minimizer alpha iterMax volume elapsed0)
      = Except.error msg := by
  cases elapsed0 <;> simp [print_statistics, mkTikhonovSolver]

end ClaimC10

section ClaimC8

lemma replaceDotChar_ne_dot (c : Char) : replaceDotChar c ≠ '.' := by
  unfold replaceDotChar
  by_cases h : c = '.'
  · rw [if_pos h]
    decide
  · rw [if_neg h]
    exact h

lemma replaceDotChar_ne_marker (c : Char) (hc : floatReprChar c = true) :
    replaceDotChar c ≠ 'a' := by
  unfold replaceDotChar
  by_cases h : c = '.'
  · rw [if_pos h]
    decide
  · rw [if_neg h]
    intro he
    rw [he] at hc
    exact absurd hc (by decide)

lemma replaceDotChar_inj (c1 c2 : Char) (h1 : floatReprChar c1 = true)
    (h2 : floatReprChar c2 = true) (h : replaceDotChar c1 = replaceDotChar c2) : c1 = c2 := by
  unfold replaceDotChar at h
  by_cases d1 : c1 = '.' <;> by_cases d2 : c2 = '.'
  · rw [d1, d2]
  · rw [if_pos d1, if_neg d2] at h
    rw [← h] at h2
    exact absurd h2 (by decide)
  · rw [if_neg d1, if_pos d2] at h
    rw [h] at h1
    exact absurd h1 (by decide)
  · rw [if_neg d1, if_neg d2] at h
    exact h

lemma map_replaceDotChar_inj : ∀ (a1 a2 : List Char),
    (∀ c ∈ a1, floatReprChar c = true) → (∀ c ∈ a2, floatReprChar c = true) →
    a1.map replaceDotChar = a2.map replaceDotChar → a1 = a2
  | [], [], _, _, _ => rfl
  | [], _ :: _, _, _, h => by simp at h
  | _ :: _, [], _, _, h => by simp at h
  | c :: cs, d :: ds, h1, h2, h => by
    simp only [List.map_cons, List.cons.injEq] at h
    rw [replaceDotChar_inj c d (h1 c (List.mem_cons_self _ _)) (h2 d (List.mem_cons_self _ _)) h.1,
      map_replaceDotChar_inj cs ds (fun x hx => h1 x (List.mem_cons_of_mem _ hx))
        (fun x hx => h2 x (List.mem_cons_of_mem _ hx)) h.2]

/-- Two lists whose characters avoid a marker, each followed by a block
starting with that marker, can only concatenate to the same list if they
are equal. -/
lemma eq_of_append_eq_no_marker : ∀ (u1 u2 v1 v2 : List Char),
    u1 ++ v1 = u2 ++ v2 →
    (∀ c ∈ u1, c ≠ 'a') → (∀ c ∈ u2, c ≠ 'a') →
    v1.head? = some 'a' → v2.head? = some 'a' → u1 = u2
  | [], [], _, _, _, _, _, _, _ => rfl
  | [], d :: u2', v1, v2, h, _, h2, hv1, _ => by
    exfalso
    rw [List.nil_append] at h
    have hd : v1.head? = some d := by
      rw [h]
      rfl
    rw [hv1] at hd
    exact h2 d (List.mem_cons_self _ _) (Option.some.inj hd).symm
  | c :: u1', [], v1, v2, h, h1, _, _, hv2 => by
    exfalso
    rw [List.nil_append] at h
    have hd : v2.head? = some c := by
      rw [← h]
      rfl
    rw [hv2] at hd
    exact h1 c (List.mem_cons_self _ _) (Option.some.inj hd).symm
  | c :: u1', d :: u2', v1, v2, h, h1, h2, hv1, hv2 => by
    simp only [List.cons_append, List.cons.injEq] at h
    rw [h.1, eq_of_append_eq_no_marker u1' u2' v1 v2 h.2
      (fun x hx => h1 x (List.mem_cons_of_mem _ hx))
      (fun x hx => h2 x (List.mem_cons_of_mem _ hx)) hv1 hv2]

lemma replaceDots_no_dot (s : String) : '.' ∉ (replaceDots s).data := by
  intro hmem
  have hd : (replaceDots s).data = s.data.map replaceDotChar := rfl
  rw [hd] at hmem
  obtain ⟨c, _, hceq⟩ := List.mem_map.mp hmem
  exact replaceDotChar_ne_dot c hceq

/-- C8: `get_setting_specific_filename` is a deterministic function of the
configuration tuple; two configurations that agree except in `alpha`
(whose Python float renderings then differ and consist of float-repr
characters) produce different identifier strings; and no produced string
contains a literal dot. -/
theorem setting_specific_filename_properties (cfg1 cfg2 : TikFilenameConfig) (pre : String)
    (hstacks : cfg1.n_stacks = cfg2.n_stacks)
    (hreg : cfg1.reg_type = cfg2.reg_type)
    (hmin : cfg1.minimizer = cfg2.minimizer)
    (hiter : cfg1.iter_max = cfg2.iter_max)
    (halpha : cfg1.alpha ≠ cfg2.alpha)
    (hstr : cfg1.alphaStr ≠ cfg2.alphaStr)
    (hc1 : ∀ c ∈ cfg1.alphaStr.data, floatReprChar c = true)
    (hc2 : ∀ c ∈ cfg2.alphaStr.data, floatReprChar c = true) :
    (∀ c1 c2 : TikFilenameConfig, ∀ q : String, c1 = c2 →
      get_setting_specific_filename c1 q = get_setting_specific_filename c2 q)
    ∧ get_setting_specific_filename cfg1 pre ≠ get_setting_specific_filename cfg2 pre
    ∧ ∀ c : TikFilenameConfig, ∀ q : String,
        '.' ∉ (get_setting_specific_filename c q).data := by
  refine ⟨fun c1 c2 q h => by rw [h], ?_, fun c q => replaceDots_no_dot _⟩
  intro heq
  apply hstr
  have hdata := congrArg String.data heq
  simp only [get_setting_specific_filename, replaceDots, String.data_append,
    List.map_append] at hdata
  have hrev := congrArg List.reverse hdata
  simp only [List.reverse_append, List.append_assoc] at hrev
  rw [hiter, hmin] at hrev
  have h3 := List.append_cancel_left (List.append_cancel_left hrev)
  have hE : (List.map replaceDotChar "_alpha".data).reverse
      = 'a' :: ['h', 'p', 'l', 'a', '_'] := by decide
  have hu1 : ∀ c ∈ (List.map replaceDotChar cfg1.alphaStr.data).reverse, c ≠ 'a' := by
    intro c hcmem
    rw [List.mem_reverse] at hcmem
    obtain ⟨c0, hc0, rfl⟩ := List.mem_map.mp hcmem
    exact replaceDotChar_ne_marker c0 (hc1 c0 hc0)
  have hu2 : ∀ c ∈ (List.map replaceDotChar cfg2.alphaStr.data).reverse, c ≠ 'a' := by
    intro c hcmem
    rw [List.mem_reverse] at hcmem
    obtain ⟨c0, hc0, rfl⟩ := List.mem_map.mp hcmem
    exact replaceDotChar_ne_marker c0 (hc2 c0 hc0)
  have h4 := eq_of_append_eq_no_marker _ _ _ _ h3 hu1 hu2 (by rw [hE]; rfl) (by rw [hE]; rfl)
  have h5 := List.reverse_injective h4
  have h6 := map_replaceDotChar_inj cfg1.alphaStr.data cfg2.alphaStr.data hc1 hc2 h5
  exact String.ext h6

/-- A configuration with `alpha = 0`, rendered `0.0`. -/
def conc_cfg1 : TikFilenameConfig :=
  { n_stacks := 2, reg_type := "TK1", minimizer := "lsmr", alpha := 0, alphaStr := "0.0",
    iter_max := 10 }

/-- The same configuration with `alpha = 0.03`, rendered `0.03`. -/
def conc_cfg2 : TikFilenameConfig :=
  { n_stacks := 2, reg_type := "TK1", minimizer := "lsmr", alpha := 3 / 100,
    alphaStr := "0.03", iter_max := 10 }

/-- Witness for C8 on two concrete configurations differing only in
`alpha`. -/
theorem setting_specific_filename_properties_witness :
    conc_cfg1.alphaStr ≠ conc_cfg2.alphaStr
    ∧ get_setting_specific_filename conc_cfg1 "recon"
        ≠ get_setting_specific_filename conc_cfg2 "recon" :=
  ⟨by decide,
   (setting_specific_filename_properties conc_cfg1 conc_cfg2 "recon" rfl rfl rfl rfl
     (by norm_num [conc_cfg1, conc_cfg2]) (by decide) (by decide) (by decide)).2.1⟩

end ClaimC8

end NiftyMIC
